import Mathlib

/-!
Shallow embedding of the soundshare audio signal-chain controller.

The definitions below are transcribed from the player components of the
repository:

* `src/components/TrackCard.tsx` — the single-track player: pitch
  compensation (`useEffect` on `[playbackRate, pitchShift]`), mastering
  preset averaging (`useEffect` on `[masteringPresets]`), the effect-chain
  rebuild (`useEffect` on the four effect toggles), `handleSeek`, and
  `downloadTransformed`.
* `src/components/MultiTrackPlayer.tsx` — the multi-stem player:
  `initializeStems` (per-stem effect graph and initial state),
  `togglePlay` (synchronized start), and `updateStemParam`.

Numbers are modelled with `ℚ`; the platform's base-2 logarithm is an
explicit function parameter where the source calls `Math.log2`.
-/

set_option linter.unusedVariables false

namespace SoundShare

/-! ### Single-track player: pitch compensation (TrackCard.tsx 176-192) -/

/-- Pitch compensation computed by the playback-rate `useEffect`:
`const pitchCompensation = -12 * Math.log2(playbackRate)`.
`log2` stands for the platform's `Math.log2`. -/
def pitchCompensation (log2 : ℚ → ℚ) (playbackRate : ℚ) : ℚ :=
  -12 * log2 playbackRate

/-- Value written to the pitch-shift node:
`const totalPitchShift = pitchShift + pitchCompensation;
 pitchShifterRef.current.pitch = totalPitchShift`. -/
def totalPitchShift (log2 : ℚ → ℚ) (pitchShift playbackRate : ℚ) : ℚ :=
  pitchShift + pitchCompensation log2 playbackRate

/-! ### Single-track player: mastering presets (TrackCard.tsx 232-270, 957-1044) -/

/-- The five mastering presets offered by the UI. -/
inductive MasteringPreset
  | warm
  | bright
  | punchy
  | airy
  | balanced
deriving DecidableEq

/-- Per-preset low-band dB offset (the `presetValues` record). -/
def presetLow : MasteringPreset → ℚ
  | .warm => 3
  | .bright => -2
  | .punchy => 4
  | .airy => -1
  | .balanced => 0

/-- Per-preset mid-band dB offset (the `presetValues` record). -/
def presetMid : MasteringPreset → ℚ
  | .warm => -1
  | .bright => 1
  | .punchy => 2
  | .airy => -2
  | .balanced => 0

/-- Per-preset high-band dB offset (the `presetValues` record). -/
def presetHigh : MasteringPreset → ℚ
  | .warm => -2
  | .bright => 4
  | .punchy => 1
  | .airy => 5
  | .balanced => 0

/-- The three gains pushed to the mastering `EQ3` node. -/
structure EqGains where
  low : ℚ
  mid : ℚ
  high : ℚ
deriving DecidableEq

/-- Gains written by the mastering-presets `useEffect`: flat `0/0/0` when no
preset is selected, otherwise the per-band totals divided by
`masteringPresets.length`. -/
def applyMasteringPresets (sel : List MasteringPreset) : EqGains :=
  if sel.length = 0 then ⟨0, 0, 0⟩
  else
    let totalLow := (sel.map presetLow).sum
    let totalMid := (sel.map presetMid).sum
    let totalHigh := (sel.map presetHigh).sum
    ⟨totalLow / (sel.length : ℚ), totalMid / (sel.length : ℚ), totalHigh / (sel.length : ℚ)⟩

/-- Preset toggle `onClick` handler:
`prev.includes(q) ? prev.filter(p => p !== q) : [...prev, q]`. -/
def togglePreset (q : MasteringPreset) (prev : List MasteringPreset) : List MasteringPreset :=
  if q ∈ prev then prev.filter (fun p => p != q) else prev ++ [q]

/-- Arithmetic mean of a list of rationals, as the spec phrases the
mastering-gain rule ("the arithmetic mean of the selected presets'
per-band values"). -/
def arithmeticMean (xs : List ℚ) : ℚ :=
  xs.sum / (xs.length : ℚ)

/-! ### Single-track player: seek (TrackCard.tsx 349-369) -/

/-- Transport command issued to a `Tone.Player`. -/
inductive PlayerCmd
  | stop
  | start (offsetSeconds : ℚ)
deriving DecidableEq

/-- Offset computed by `handleSeek`:
`const percentage = x / rect.width; const newTime = percentage * duration`.
`clickX` is `e.clientX - rect.left` and `width` is `rect.width`. -/
def seekOffset (duration clickX width : ℚ) : ℚ :=
  clickX / width * duration

/-- Transport commands issued by `handleSeek`. The handler returns
immediately when `duration` is falsy; otherwise it stops the player when it
was playing, starts at the new offset, and — when it was not playing —
immediately stops again. -/
def handleSeek (duration clickX width : ℚ) (isPlaying : Bool) : List PlayerCmd :=
  if duration = 0 then []
  else
    let newTime := seekOffset duration clickX width
    (if isPlaying then [PlayerCmd.stop] else []) ++
      [PlayerCmd.start newTime] ++
      (if isPlaying then [] else [PlayerCmd.stop])

/-! ### Single-track player: recording (TrackCard.tsx 385-440) -/

/-- Inputs of one `downloadTransformed` call: the querying of component
state at entry, plus `captureOk`, which tells whether the awaited capture
(`recorderRef.current.stop()`) succeeds or throws. The failure path is
modelled at that final capture step; the `catch` block only logs, alerts
and clears `isRecording`. -/
structure CaptureInput where
  duration : ℚ
  playbackRate : ℚ
  loopBefore : Bool
  wasPlaying : Bool
  captureOk : Bool
deriving DecidableEq

/-- Observable outcome of one `downloadTransformed` call. `loopAfter` and
`playingAfter` are the player node's `loop` flag and transport state once
the call (or its `catch` block) finishes; with `loop` forced false during
capture, a player started for capture has stopped again by the time the
`recordDuration + 500` wait elapses. -/
structure CaptureResult where
  performed : Bool
  waitMs : ℚ
  loopDuringCapture : Bool
  loopAfter : Bool
  playingAfter : Bool
  blobProduced : Bool
  isRecordingAfter : Bool
deriving DecidableEq

/-- The `downloadTransformed` handler. Guard: `!duration` aborts with an
"Audio not ready" alert. Otherwise it saves `loopEnabled`/`isPlaying`,
stops the player when playing, forces `loop = false`, starts recorder and
player, waits `(duration / playbackRate) * 1000 + 500` milliseconds, stops
the recorder to obtain the blob, and only then restores the saved loop flag
and (when it was not playing before) issues a stop. The player, restarted
for the capture with `loop = false`, has already stopped on its own by the
time the wait elapses, and no path restarts it, so the post-call transport
is stopped on success and on failure alike — a previously-playing track is
not resumed. When the capture throws, control jumps to `catch`, which does
not restore anything. -/
def downloadTransformed (inp : CaptureInput) : CaptureResult :=
  if inp.duration = 0 then
    { performed := false
      waitMs := 0
      loopDuringCapture := inp.loopBefore
      loopAfter := inp.loopBefore
      playingAfter := inp.wasPlaying
      blobProduced := false
      isRecordingAfter := false }
  else
    let recordDuration := inp.duration / inp.playbackRate * 1000
    if inp.captureOk then
      { performed := true
        waitMs := recordDuration + 500
        loopDuringCapture := false
        loopAfter := inp.loopBefore
        playingAfter := false
        blobProduced := true
        isRecordingAfter := false }
    else
      { performed := true
        waitMs := recordDuration + 500
        loopDuringCapture := false
        loopAfter := false
        playingAfter := false
        blobProduced := false
        isRecordingAfter := false }

/-! ### Signal-graph topology

`initializeStems` (MultiTrackPlayer.tsx 180-197) wires each stem's nodes
once; the chain-rebuild `useEffect` (TrackCard.tsx 272-311) rewires the
single-track player on every effect toggle. Graphs are edge lists. -/

/-- Audio-graph nodes appearing in either player. -/
inductive AudioNode
  | player
  | pitchNode
  | volumeNode
  | panner
  | eq3
  | reverb
  | delay
  | distortion
  | chorus
  | envelope
  | recorder
  | destination
deriving DecidableEq

/-- A directed `connect` edge between two audio nodes. -/
abbrev Edge := AudioNode × AudioNode

/-- The four optional-effect toggles of the single-track player. -/
structure CardFx where
  reverbEnabled : Bool
  delayEnabled : Bool
  distortionEnabled : Bool
  chorusEnabled : Bool
deriving DecidableEq

/-- Edges produced by the chain-rebuild `useEffect` of the single-track
player: starting from `eq3`, each enabled effect is appended to a running
`lastNode` chain (reverb, then delay, then distortion, then chorus), and
the final `lastNode` is connected to the recorder and to the destination. -/
def rebuildChain (f : CardFx) : List Edge :=
  let s0 : List Edge × AudioNode := ([], AudioNode.eq3)
  let s1 := if f.reverbEnabled then (s0.1 ++ [(s0.2, AudioNode.reverb)], AudioNode.reverb) else s0
  let s2 := if f.delayEnabled then (s1.1 ++ [(s1.2, AudioNode.delay)], AudioNode.delay) else s1
  let s3 := if f.distortionEnabled then
      (s2.1 ++ [(s2.2, AudioNode.distortion)], AudioNode.distortion)
    else s2
  let s4 := if f.chorusEnabled then (s3.1 ++ [(s3.2, AudioNode.chorus)], AudioNode.chorus) else s3
  s4.1 ++ [(s4.2, AudioNode.recorder), (s4.2, AudioNode.destination)]

/-- Per-stem graph wired by `initializeStems`, independent of any enabled
flag: player → pitch → volume → panner → eq, the eq fanning out to reverb,
delay, distortion and envelope, every effect and the dry eq output summing
into the destination. -/
def stemGraph : List Edge :=
  [(AudioNode.player, AudioNode.pitchNode),
   (AudioNode.pitchNode, AudioNode.volumeNode),
   (AudioNode.volumeNode, AudioNode.panner),
   (AudioNode.panner, AudioNode.eq3),
   (AudioNode.eq3, AudioNode.reverb),
   (AudioNode.eq3, AudioNode.delay),
   (AudioNode.eq3, AudioNode.distortion),
   (AudioNode.eq3, AudioNode.envelope),
   (AudioNode.reverb, AudioNode.destination),
   (AudioNode.delay, AudioNode.destination),
   (AudioNode.distortion, AudioNode.destination),
   (AudioNode.envelope, AudioNode.destination),
   (AudioNode.eq3, AudioNode.destination)]

/-- Parallel-then-sum topology as the spec words it: the mastering-EQ
output fans out to every enabled optional effect and directly dry to the
output, and each enabled effect sums independently into the output. -/
def parallelThenSum (effects : List AudioNode) (edges : List Edge) : Prop :=
  (AudioNode.eq3, AudioNode.destination) ∈ edges ∧
    ∀ e ∈ effects, (AudioNode.eq3, e) ∈ edges ∧ (e, AudioNode.destination) ∈ edges

instance (effects : List AudioNode) (edges : List Edge) :
    Decidable (parallelThenSum effects edges) :=
  decidable_of_iff
    ((AudioNode.eq3, AudioNode.destination) ∈ edges ∧
      ∀ e ∈ effects, (AudioNode.eq3, e) ∈ edges ∧ (e, AudioNode.destination) ∈ edges)
    Iff.rfl

/-- The effects enabled in `f`, in the fixed order the rebuild visits them. -/
def enabledEffects (f : CardFx) : List AudioNode :=
  (if f.reverbEnabled then [AudioNode.reverb] else []) ++
    (if f.delayEnabled then [AudioNode.delay] else []) ++
    (if f.distortionEnabled then [AudioNode.distortion] else []) ++
    (if f.chorusEnabled then [AudioNode.chorus] else [])

/-- Serial chain through the given effect list, ending at recorder and
destination. -/
def chainLinks : AudioNode → List AudioNode → List Edge
  | prev, [] => [(prev, AudioNode.recorder), (prev, AudioNode.destination)]
  | prev, e :: rest => (prev, e) :: chainLinks e rest

/-! ### Multi-stem player state (MultiTrackPlayer.tsx)

One stem holds the React-side parameter record (`stemStates[stemId]`) and
the applied values on its Tone nodes. `updateStemParam` first records the
new parameter value (`setStemStates`), then pushes it to the nodes in its
`switch`. -/

/-- One entry of `stemStates`: the per-stem parameter record. -/
structure StemCtrl where
  muted : Bool
  solo : Bool
  volume : ℚ
  pan : ℚ
  lowGain : ℚ
  midGain : ℚ
  highGain : ℚ
  reverbEnabled : Bool
  reverbMix : ℚ
  delayEnabled : Bool
  delayTime : ℚ
  delayFeedback : ℚ
  delayMix : ℚ
  distortionEnabled : Bool
  distortionAmount : ℚ
  pitchShift : ℚ
  envelopeEnabled : Bool
  attack : ℚ
  decay : ℚ
  sustain : ℚ
  release : ℚ
deriving DecidableEq

/-- Applied values on one stem's Tone nodes. -/
structure StemNodes where
  volumeMute : Bool
  volumeDb : ℚ
  eqLow : ℚ
  eqMid : ℚ
  eqHigh : ℚ
  reverbWet : ℚ
  delayWet : ℚ
  delayTimeVal : ℚ
  delayFeedbackVal : ℚ
  distortionWet : ℚ
  distortionVal : ℚ
  pitch : ℚ
  envAttack : ℚ
  envDecay : ℚ
  envSustain : ℚ
  envRelease : ℚ
deriving DecidableEq

/-- One stem: its parameter record plus its audio nodes. -/
structure StemUnit where
  ctrl : StemCtrl
  nodes : StemNodes
deriving DecidableEq

/-- A multi-stem session, ordered as `stemGroup.stems`. -/
abbrev Session := List StemUnit

/-- The parameter record `initialStates[stem.id]` written by
`initializeStems`. -/
def initStemCtrl : StemCtrl :=
  { muted := false
    solo := false
    volume := 0
    pan := 0
    lowGain := 0
    midGain := 0
    highGain := 0
    reverbEnabled := false
    reverbMix := 0.35
    delayEnabled := false
    delayTime := 0.25
    delayFeedback := 0.4
    delayMix := 0.25
    distortionEnabled := false
    distortionAmount := 0.25
    pitchShift := 0
    envelopeEnabled := false
    attack := 0.01
    decay := 0.1
    sustain := 1
    release := 0.5 }

/-- Node values created by `initializeStems`: `volume.mute = false`, the
EQ flat, reverb/delay/distortion created with `wet: 0`, and the remaining
constructor arguments. -/
def initStemNodes : StemNodes :=
  { volumeMute := false
    volumeDb := 0
    eqLow := 0
    eqMid := 0
    eqHigh := 0
    reverbWet := 0
    delayWet := 0
    delayTimeVal := 0.25
    delayFeedbackVal := 0.4
    distortionWet := 0
    distortionVal := 0.25
    pitch := 0
    envAttack := 0.01
    envDecay := 0.1
    envSustain := 1
    envRelease := 0.5 }

/-- A freshly initialized stem. -/
def initStemUnit : StemUnit :=
  { ctrl := initStemCtrl, nodes := initStemNodes }

/-- The `param`/`value` argument pairs accepted by `updateStemParam`. -/
inductive StemParam
  | volume (v : ℚ)
  | muted (v : Bool)
  | solo (v : Bool)
  | lowGain (v : ℚ)
  | midGain (v : ℚ)
  | highGain (v : ℚ)
  | reverbEnabled (v : Bool)
  | reverbMix (v : ℚ)
  | delayEnabled (v : Bool)
  | delayTime (v : ℚ)
  | delayFeedback (v : ℚ)
  | delayMix (v : ℚ)
  | distortionEnabled (v : Bool)
  | distortionAmount (v : ℚ)
  | pitchShift (v : ℚ)
  | attack (v : ℚ)
  | decay (v : ℚ)
  | sustain (v : ℚ)
  | release (v : ℚ)
deriving DecidableEq

/-- Replace the element at index `i` by `f` applied to it; out-of-range
indices leave the list unchanged. -/
def modifyAt (s : List α) (i : ℕ) (f : α → α) : List α :=
  match s, i with
  | [], _ => []
  | a :: t, 0 => f a :: t
  | a :: t, n + 1 => a :: modifyAt t n f

/-- The `setStemStates` step: store the new parameter value in the stem's
record (`{...prev[stemId], [param]: value}`). -/
def setCtrlParam (c : StemCtrl) : StemParam → StemCtrl
  | .volume v => { c with volume := v }
  | .muted v => { c with muted := v }
  | .solo v => { c with solo := v }
  | .lowGain v => { c with lowGain := v }
  | .midGain v => { c with midGain := v }
  | .highGain v => { c with highGain := v }
  | .reverbEnabled v => { c with reverbEnabled := v }
  | .reverbMix v => { c with reverbMix := v }
  | .delayEnabled v => { c with delayEnabled := v }
  | .delayTime v => { c with delayTime := v }
  | .delayFeedback v => { c with delayFeedback := v }
  | .delayMix v => { c with delayMix := v }
  | .distortionEnabled v => { c with distortionEnabled := v }
  | .distortionAmount v => { c with distortionAmount := v }
  | .pitchShift v => { c with pitchShift := v }
  | .attack v => { c with attack := v }
  | .decay v => { c with decay := v }
  | .sustain v => { c with sustain := v }
  | .release v => { c with release := v }

/-- Set just the applied `volume.mute` of a stem. -/
def setVolumeMute (b : Bool) (u : StemUnit) : StemUnit :=
  { u with nodes := { u.nodes with volumeMute := b } }

/-- Whether any stem of the session has `solo = true`
(`Object.values(states).some(s => s.solo)`). -/
def hasSolo (s : Session) : Bool :=
  s.any (fun u => u.ctrl.solo)

/-- The solo-precedence recompute applied to every stem by the `solo`
branch of `updateStemParam` and by the start branch of `togglePlay`:
with a solo active, a solo'd stem keeps its own `muted`, every other stem
is muted; with no solo active, each stem keeps its own `muted`. -/
def recomputeMutes (s : Session) : Session :=
  let hs := hasSolo s
  s.map (fun u =>
    setVolumeMute
      (if hs then (if u.ctrl.solo then u.ctrl.muted else true) else u.ctrl.muted) u)

/-- Semantics of `updateStemParam(stemId, param, value)`: store the value in
`stemStates`, then push it to the stem's nodes per the `switch`. The
branches that consult other fields (`reverbEnabled` reading `reverbMix`,
`reverbMix` reading `reverbEnabled`, and likewise for delay) read the
`stemStates` snapshot taken at entry, exactly as the source does; the
`solo` branch rebuilds `newStates` with the new solo value and recomputes
every stem's `volume.mute`. Out-of-range indices change nothing, matching
the `if (!stem) return` guard. -/
def updateStemParam (s : Session) (i : ℕ) (p : StemParam) : Session :=
  if h : i < s.length then
    let old := s.get ⟨i, h⟩
    let s' := modifyAt s i (fun u => { u with ctrl := setCtrlParam u.ctrl p })
    match p with
    | .volume v => modifyAt s' i (fun u => { u with nodes := { u.nodes with volumeDb := v } })
    | .muted v => modifyAt s' i (setVolumeMute v)
    | .solo v => recomputeMutes s'
    | .lowGain v => modifyAt s' i (fun u => { u with nodes := { u.nodes with eqLow := v } })
    | .midGain v => modifyAt s' i (fun u => { u with nodes := { u.nodes with eqMid := v } })
    | .highGain v => modifyAt s' i (fun u => { u with nodes := { u.nodes with eqHigh := v } })
    | .reverbEnabled v =>
        modifyAt s' i (fun u =>
          { u with nodes := { u.nodes with reverbWet := if v then old.ctrl.reverbMix else 0 } })
    | .reverbMix v =>
        if old.ctrl.reverbEnabled then
          modifyAt s' i (fun u => { u with nodes := { u.nodes with reverbWet := v } })
        else s'
    | .delayEnabled v =>
        modifyAt s' i (fun u =>
          { u with nodes := { u.nodes with delayWet := if v then old.ctrl.delayMix else 0 } })
    | .delayTime v => modifyAt s' i (fun u => { u with nodes := { u.nodes with delayTimeVal := v } })
    | .delayFeedback v =>
        modifyAt s' i (fun u => { u with nodes := { u.nodes with delayFeedbackVal := v } })
    | .delayMix v =>
        if old.ctrl.delayEnabled then
          modifyAt s' i (fun u => { u with nodes := { u.nodes with delayWet := v } })
        else s'
    | .distortionEnabled v =>
        modifyAt s' i (fun u =>
          { u with nodes := { u.nodes with distortionWet := if v then 1/2 else 0 } })
    | .distortionAmount v =>
        modifyAt s' i (fun u => { u with nodes := { u.nodes with distortionVal := v } })
    | .pitchShift v => modifyAt s' i (fun u => { u with nodes := { u.nodes with pitch := v } })
    | .attack v => modifyAt s' i (fun u => { u with nodes := { u.nodes with envAttack := v } })
    | .decay v => modifyAt s' i (fun u => { u with nodes := { u.nodes with envDecay := v } })
    | .sustain v => modifyAt s' i (fun u => { u with nodes := { u.nodes with envSustain := v } })
    | .release v => modifyAt s' i (fun u => { u with nodes := { u.nodes with envRelease := v } })
  else s

/-- Mute or solo toggle as the buttons invoke it:
`updateStemParam(stem.id, 'muted', !state.muted)` and
`updateStemParam(stem.id, 'solo', !state.solo)`. -/
inductive ToggleOp
  | mute (i : ℕ)
  | solo (i : ℕ)

/-- Apply one toggle button press. -/
def applyToggle (s : Session) : ToggleOp → Session
  | .mute i =>
      match s.get? i with
      | some u => updateStemParam s i (StemParam.muted (!u.ctrl.muted))
      | none => s
  | .solo i =>
      match s.get? i with
      | some u => updateStemParam s i (StemParam.solo (!u.ctrl.solo))
      | none => s

/-- Apply a sequence of toggle button presses, oldest first. -/
def applyToggles (s : Session) (ops : List ToggleOp) : Session :=
  ops.foldl applyToggle s

/-- A scheduled start command issued in the start branch of `togglePlay`. -/
structure StartCmd where
  stemIdx : ℕ
  time : ℚ
deriving DecidableEq

/-- Start branch of `togglePlay`: `const now = Tone.now()` is taken once,
then every stem — muted or not — receives `stem.player.start(now)`, and its
`volume.mute` is set from the solo-precedence matrix. Returns the updated
session and the issued start commands in order. -/
def playAll (now : ℚ) (s : Session) : Session × List StartCmd :=
  (recomputeMutes s, (List.range s.length).map (fun i => { stemIdx := i, time := now }))

/-- Spec-side audibility of one stem (§3 solo-precedence invariant):
with any solo active, `solo AND NOT muted`; otherwise `NOT muted`. -/
def audibility (hs : Bool) (c : StemCtrl) : Bool :=
  if hs then c.solo && !c.muted else !c.muted

/-- The solo-precedence invariant: every stem's applied `volume.mute` is
the negation of its spec-side audibility. -/
def soloInvariant (s : Session) : Prop :=
  ∀ u ∈ s, u.nodes.volumeMute = !audibility (hasSolo s) u.ctrl

instance (s : Session) : Decidable (soloInvariant s) :=
  decidable_of_iff (∀ u ∈ s, u.nodes.volumeMute = !audibility (hasSolo s) u.ctrl) Iff.rfl

/-- The disabled-effect wet invariant: whenever an optional effect's
enabled flag is false, the applied wet of its node is zero. -/
def wetInvariant (u : StemUnit) : Prop :=
  (u.ctrl.reverbEnabled = false → u.nodes.reverbWet = 0) ∧
    (u.ctrl.delayEnabled = false → u.nodes.delayWet = 0) ∧
    (u.ctrl.distortionEnabled = false → u.nodes.distortionWet = 0)

instance (u : StemUnit) : Decidable (wetInvariant u) :=
  decidable_of_iff
    ((u.ctrl.reverbEnabled = false → u.nodes.reverbWet = 0) ∧
      (u.ctrl.delayEnabled = false → u.nodes.delayWet = 0) ∧
      (u.ctrl.distortionEnabled = false → u.nodes.distortionWet = 0))
    Iff.rfl

end SoundShare

namespace SoundShare

/-! ### Helper lemmas -/

/-- Applying two modifications at the same index composes them. -/
theorem modifyAt_modifyAt (s : List α) (i : ℕ) (f g : α → α) :
    modifyAt (modifyAt s i f) i g = modifyAt s i (fun a => g (f a)) := by
  induction s generalizing i with
  | nil => rfl
  | cons a t ih =>
    cases i with
    | zero => rfl
    | succ n => simp [modifyAt, ih]

/-- Modification does not change the length. -/
theorem length_modifyAt (s : List α) (i : ℕ) (f : α → α) :
    (modifyAt s i f).length = s.length := by
  induction s generalizing i with
  | nil => rfl
  | cons a t ih =>
    cases i with
    | zero => rfl
    | succ n => simp [modifyAt, ih]

/-- Lookup at the modified index. -/
theorem get?_modifyAt_self (s : List α) (i : ℕ) (f : α → α) :
    (modifyAt s i f).get? i = (s.get? i).map f := by
  induction s generalizing i with
  | nil => rfl
  | cons a t ih =>
    cases i with
    | zero => rfl
    | succ n => simpa [modifyAt] using ih n

/-- A pointwise property survives `modifyAt` when it holds on the original
list and on the image of the modified element. -/
theorem forall_mem_modifyAt (s : List α) (i : ℕ) (f : α → α) (P : α → Prop)
    (hs : ∀ u ∈ s, P u) (hf : ∀ h : i < s.length, P (f (s.get ⟨i, h⟩))) :
    ∀ u ∈ modifyAt s i f, P u := by
  induction s generalizing i with
  | nil => intro u hu; simp [modifyAt] at hu
  | cons a t ih =>
    cases i with
    | zero =>
      intro u hu
      rcases List.mem_cons.mp hu with rfl | hu
      · exact hf (by simp)
      · exact hs u (List.mem_cons_of_mem a hu)
    | succ n =>
      intro u hu
      rcases List.mem_cons.mp hu with rfl | hu
      · exact hs u (List.mem_cons_self u t)
      · exact ih n (fun v hv => hs v (List.mem_cons_of_mem a hv))
          (fun h => hf (Nat.succ_lt_succ h)) u hu

/-- Recomputing mutes does not change which stems are solo'd. -/
theorem hasSolo_recomputeMutes (s : Session) : hasSolo (recomputeMutes s) = hasSolo s := by
  unfold hasSolo recomputeMutes
  rw [List.any_map]
  rfl

/-- The solo-precedence recompute establishes the audibility invariant. -/
theorem recomputeMutes_soloInvariant (s : Session) : soloInvariant (recomputeMutes s) := by
  intro u hu
  rw [hasSolo_recomputeMutes]
  rcases List.mem_map.mp hu with ⟨a, ha, rfl⟩
  cases hs : hasSolo s <;>
    cases hsolo : a.ctrl.solo <;>
      cases hm : a.ctrl.muted <;>
        simp [setVolumeMute, audibility, hs, hsolo, hm]

/-- A pointwise property survives two stacked modifications at one index
when it holds on the original list and on the composed image of the
modified element. -/
theorem forall_mem_modifyAt_two (s : List α) (i : ℕ) (f g : α → α) (P : α → Prop)
    (hs : ∀ u ∈ s, P u) (hfg : ∀ h : i < s.length, P (g (f (s.get ⟨i, h⟩)))) :
    ∀ u ∈ modifyAt (modifyAt s i f) i g, P u := by
  rw [modifyAt_modifyAt]
  exact forall_mem_modifyAt s i _ P hs hfg

/-- Recomputed mutes only touch `volume.mute`, so the wet invariant
survives. -/
theorem wetInvariant_recomputeMutes (s : Session) (hs : ∀ u ∈ s, wetInvariant u) :
    ∀ u ∈ recomputeMutes s, wetInvariant u := by
  intro u hu
  rcases List.mem_map.mp hu with ⟨a, ha, rfl⟩
  simpa [wetInvariant, setVolumeMute] using hs a ha

/-- Every `updateStemParam` branch preserves the disabled-effect wet
invariant. -/
theorem wetInvariant_updateStemParam (s : Session) (i : ℕ) (p : StemParam)
    (hinv : ∀ u ∈ s, wetInvariant u) :
    ∀ u ∈ updateStemParam s i p, wetInvariant u := by
  unfold updateStemParam
  by_cases h : i < s.length
  · rw [dif_pos h]
    cases p with
    | volume v =>
        exact forall_mem_modifyAt_two _ _ _ _ _ hinv
          (fun h' => hinv (s.get ⟨i, h'⟩) (List.get_mem s i h'))
    | muted v =>
        exact forall_mem_modifyAt_two _ _ _ _ _ hinv
          (fun h' => hinv (s.get ⟨i, h'⟩) (List.get_mem s i h'))
    | solo v =>
        exact wetInvariant_recomputeMutes _
          (forall_mem_modifyAt _ _ _ _ hinv (fun h' => hinv (s.get ⟨i, h'⟩) (List.get_mem s i h')))
    | lowGain v =>
        exact forall_mem_modifyAt_two _ _ _ _ _ hinv
          (fun h' => hinv (s.get ⟨i, h'⟩) (List.get_mem s i h'))
    | midGain v =>
        exact forall_mem_modifyAt_two _ _ _ _ _ hinv
          (fun h' => hinv (s.get ⟨i, h'⟩) (List.get_mem s i h'))
    | highGain v =>
        exact forall_mem_modifyAt_two _ _ _ _ _ hinv
          (fun h' => hinv (s.get ⟨i, h'⟩) (List.get_mem s i h'))
    | reverbEnabled v =>
        refine forall_mem_modifyAt_two _ _ _ _ _ hinv ?_
        intro h'
        have hg := hinv (s.get ⟨i, h'⟩) (List.get_mem s i h')
        cases v
        · exact ⟨fun _ => rfl, hg.2.1, hg.2.2⟩
        · exact ⟨nofun, hg.2.1, hg.2.2⟩
    | reverbMix v =>
        show ∀ u ∈ (if (s.get ⟨i, h⟩).ctrl.reverbEnabled then
              modifyAt
                (modifyAt s i
                  (fun u => { u with ctrl := setCtrlParam u.ctrl (StemParam.reverbMix v) })) i
                (fun u => { u with nodes := { u.nodes with reverbWet := v } })
            else
              modifyAt s i
                (fun u => { u with ctrl := setCtrlParam u.ctrl (StemParam.reverbMix v) })),
          wetInvariant u
        split
        next he =>
          refine forall_mem_modifyAt_two _ _ _ _ _ hinv ?_
          intro h'
          have hg := hinv (s.get ⟨i, h'⟩) (List.get_mem s i h')
          exact ⟨fun hc => absurd hc (by simpa [setCtrlParam] using he), hg.2.1, hg.2.2⟩
        next he =>
          exact forall_mem_modifyAt _ _ _ _ hinv (fun h' => hinv (s.get ⟨i, h'⟩) (List.get_mem s i h'))
    | delayEnabled v =>
        refine forall_mem_modifyAt_two _ _ _ _ _ hinv ?_
        intro h'
        have hg := hinv (s.get ⟨i, h'⟩) (List.get_mem s i h')
        cases v
        · exact ⟨hg.1, fun _ => rfl, hg.2.2⟩
        · exact ⟨hg.1, nofun, hg.2.2⟩
    | delayTime v =>
        exact forall_mem_modifyAt_two _ _ _ _ _ hinv
          (fun h' => hinv (s.get ⟨i, h'⟩) (List.get_mem s i h'))
    | delayFeedback v =>
        exact forall_mem_modifyAt_two _ _ _ _ _ hinv
          (fun h' => hinv (s.get ⟨i, h'⟩) (List.get_mem s i h'))
    | delayMix v =>
        show ∀ u ∈ (if (s.get ⟨i, h⟩).ctrl.delayEnabled then
              modifyAt
                (modifyAt s i
                  (fun u => { u with ctrl := setCtrlParam u.ctrl (StemParam.delayMix v) })) i
                (fun u => { u with nodes := { u.nodes with delayWet := v } })
            else
              modifyAt s i
                (fun u => { u with ctrl := setCtrlParam u.ctrl (StemParam.delayMix v) })),
          wetInvariant u
        split
        next he =>
          refine forall_mem_modifyAt_two _ _ _ _ _ hinv ?_
          intro h'
          have hg := hinv (s.get ⟨i, h'⟩) (List.get_mem s i h')
          exact ⟨hg.1, fun hc => absurd hc (by simpa [setCtrlParam] using he), hg.2.2⟩
        next he =>
          exact forall_mem_modifyAt _ _ _ _ hinv (fun h' => hinv (s.get ⟨i, h'⟩) (List.get_mem s i h'))
    | distortionEnabled v =>
        refine forall_mem_modifyAt_two _ _ _ _ _ hinv ?_
        intro h'
        have hg := hinv (s.get ⟨i, h'⟩) (List.get_mem s i h')
        cases v
        · exact ⟨hg.1, hg.2.1, fun _ => rfl⟩
        · exact ⟨hg.1, hg.2.1, nofun⟩
    | distortionAmount v =>
        exact forall_mem_modifyAt_two _ _ _ _ _ hinv
          (fun h' => hinv (s.get ⟨i, h'⟩) (List.get_mem s i h'))
    | pitchShift v =>
        exact forall_mem_modifyAt_two _ _ _ _ _ hinv
          (fun h' => hinv (s.get ⟨i, h'⟩) (List.get_mem s i h'))
    | attack v =>
        exact forall_mem_modifyAt_two _ _ _ _ _ hinv
          (fun h' => hinv (s.get ⟨i, h'⟩) (List.get_mem s i h'))
    | decay v =>
        exact forall_mem_modifyAt_two _ _ _ _ _ hinv
          (fun h' => hinv (s.get ⟨i, h'⟩) (List.get_mem s i h'))
    | sustain v =>
        exact forall_mem_modifyAt_two _ _ _ _ _ hinv
          (fun h' => hinv (s.get ⟨i, h'⟩) (List.get_mem s i h'))
    | release v =>
        exact forall_mem_modifyAt_two _ _ _ _ _ hinv
          (fun h' => hinv (s.get ⟨i, h'⟩) (List.get_mem s i h'))
  · rw [dif_neg h]
    exact hinv

/-- Mastering gains are invariant under permutation of the selection. -/
theorem applyMasteringPresets_perm {S T : List MasteringPreset} (h : S.Perm T) :
    applyMasteringPresets S = applyMasteringPresets T := by
  unfold applyMasteringPresets
  rw [h.length_eq, (h.map presetLow).sum_eq, (h.map presetMid).sum_eq,
    (h.map presetHigh).sum_eq]

/-- C1: for every playback rate `r ∈ [0.25, 2]` and user pitch
`p ∈ [-12, 12]`, the value applied to the pitch-shift node equals
`p - 12 * log2 r`, so changing speed alone never changes perceived pitch. -/
theorem totalPitchShift_eq_user_minus_comp (log2 : ℚ → ℚ) (r p : ℚ)
    (hr0 : 1/4 ≤ r) (hr1 : r ≤ 2) (hp0 : -12 ≤ p) (hp1 : p ≤ 12) :
    totalPitchShift log2 p r = p - 12 * log2 r := by
  unfold totalPitchShift pitchCompensation
  ring

/-- Witness for C1 at `r = 1`, `p = 5`, with the zero logarithm. -/
theorem totalPitchShift_eq_user_minus_comp_witness :
    totalPitchShift (fun _ => 0) 5 1 = 5 - 12 * (fun (_ : ℚ) => 0) 1 :=
  totalPitchShift_eq_user_minus_comp (fun _ => 0) 1 5 (by norm_num) (by norm_num)
    (by norm_num) (by norm_num)

/-- C4: for every non-empty selection the mastering EQ gains are the
arithmetic mean of the selected presets' per-band dB offsets; with zero
presets selected the gains are exactly `0/0/0`. -/
theorem applyMasteringPresets_mean (sel : List MasteringPreset) :
    (sel ≠ [] →
      applyMasteringPresets sel =
        ⟨arithmeticMean (sel.map presetLow), arithmeticMean (sel.map presetMid),
          arithmeticMean (sel.map presetHigh)⟩) ∧
    (sel = [] → applyMasteringPresets sel = ⟨0, 0, 0⟩) := by
  constructor
  · intro h
    unfold applyMasteringPresets arithmeticMean
    rw [if_neg (by simpa [List.length_eq_zero] using h)]
    simp [List.length_map]
  · rintro rfl
    rfl

/-- Witness for C4 with the selection `[warm, bright]`. -/
theorem applyMasteringPresets_mean_witness :
    applyMasteringPresets [MasteringPreset.warm, MasteringPreset.bright] =
      ⟨arithmeticMean ([MasteringPreset.warm, MasteringPreset.bright].map presetLow),
        arithmeticMean ([MasteringPreset.warm, MasteringPreset.bright].map presetMid),
        arithmeticMean ([MasteringPreset.warm, MasteringPreset.bright].map presetHigh)⟩ :=
  (applyMasteringPresets_mean [MasteringPreset.warm, MasteringPreset.bright]).1 (by decide)

/-- C9: toggling the same preset twice returns the selection to a list with
the same membership, and (for a duplicate-free selection, as the UI
maintains) to the same mastering EQ gains. -/
theorem togglePreset_involutive (S : List MasteringPreset) (q : MasteringPreset) :
    (∀ p, p ∈ togglePreset q (togglePreset q S) ↔ p ∈ S) ∧
    (S.Nodup →
      applyMasteringPresets (togglePreset q (togglePreset q S)) = applyMasteringPresets S) := by
  by_cases hq : q ∈ S
  · have h1 : togglePreset q S = S.filter (fun p => p != q) := if_pos hq
    have hq1 : q ∉ S.filter (fun p => p != q) := by simp [List.mem_filter]
    have h2 : togglePreset q (togglePreset q S) = S.filter (fun p => p != q) ++ [q] := by
      rw [h1]
      exact if_neg hq1
    constructor
    · intro p
      rw [h2]
      by_cases hpq : p = q
      · subst hpq
        simp [hq]
      · simp [List.mem_append, List.mem_filter, hpq]
    · intro hnd
      have hf : S.filter (fun p => p != q) = S.erase q := by
        rw [List.Nodup.erase_eq_filter hnd q]
      have hperm : (S.filter (fun p => p != q) ++ [q]).Perm S := by
        rw [hf]
        exact (List.perm_append_singleton q _).trans (List.perm_cons_erase hq).symm
      rw [h2]
      exact applyMasteringPresets_perm hperm
  · have h1 : togglePreset q S = S ++ [q] := if_neg hq
    have h2 : togglePreset q (togglePreset q S) = S := by
      rw [h1]
      unfold togglePreset
      rw [if_pos (by simp), List.filter_append]
      have hself : S.filter (fun p => p != q) = S :=
        List.filter_eq_self.mpr (fun a ha => by
          simp only [bne_iff_ne, ne_eq, decide_eq_true_eq]
          exact fun hcontra => hq (hcontra ▸ ha))
      simp [hself]
    rw [h2]
    exact ⟨fun p => Iff.rfl, fun _ => rfl⟩

/-- Witness for C9 with `S = [warm, airy]`, `q = airy`. -/
theorem togglePreset_involutive_witness :
    (MasteringPreset.warm ∈
        togglePreset MasteringPreset.airy
          (togglePreset MasteringPreset.airy [MasteringPreset.warm, MasteringPreset.airy]) ↔
      MasteringPreset.warm ∈ [MasteringPreset.warm, MasteringPreset.airy]) ∧
    applyMasteringPresets
        (togglePreset MasteringPreset.airy
          (togglePreset MasteringPreset.airy [MasteringPreset.warm, MasteringPreset.airy])) =
      applyMasteringPresets [MasteringPreset.warm, MasteringPreset.airy] :=
  ⟨(togglePreset_involutive [MasteringPreset.warm, MasteringPreset.airy]
      MasteringPreset.airy).1 MasteringPreset.warm,
    (togglePreset_involutive [MasteringPreset.warm, MasteringPreset.airy]
      MasteringPreset.airy).2 (by decide)⟩

/-- C7: the start branch of `togglePlay` computes one scheduling timestamp
and starts every voice — muted and non-solo'd ones included — with that
identical timestamp; inaudibility is produced only by the recomputed
`volume.mute` values, never by skipping a start. -/
theorem playAll_sync (now : ℚ) (s : Session) :
    (playAll now s).2.length = s.length ∧
    (∀ c ∈ (playAll now s).2, c.time = now) ∧
    (∀ i, i < s.length → ({ stemIdx := i, time := now } : StartCmd) ∈ (playAll now s).2) ∧
    (playAll now s).1.length = s.length ∧
    soloInvariant (playAll now s).1 := by
  refine ⟨by simp [playAll], ?_, ?_, by simp [playAll, recomputeMutes],
    recomputeMutes_soloInvariant s⟩
  · intro c hc
    simp only [playAll, List.mem_map, List.mem_range] at hc
    rcases hc with ⟨i, hi, rfl⟩
    rfl
  · intro i hi
    simp only [playAll, List.mem_map, List.mem_range]
    exact ⟨i, hi, rfl⟩

/-- Witness for C7 with a two-stem session at `now = 3`. -/
theorem playAll_sync_witness :
    (playAll 3 [initStemUnit, initStemUnit]).2.length = 2 ∧
    (({ stemIdx := 1, time := 3 } : StartCmd) ∈ (playAll 3 [initStemUnit, initStemUnit]).2) :=
  ⟨(playAll_sync 3 [initStemUnit, initStemUnit]).1,
    (playAll_sync 3 [initStemUnit, initStemUnit]).2.2.1 1 (by decide)⟩

/-- C2 counterexample: in a two-stem session, solo stem 0, then toggle stem
1's mute on and off again. The final assignment has stem 0 solo'd and stem
1 unmuted, so solo precedence demands stem 1 be inaudible, but the mute
branch of `updateStemParam` wrote only stem 1's own flag and left it
audible: the invariant does not hold after every toggle sequence. -/
theorem soloInvariant_toggle_counterexample :
    ¬ soloInvariant
        (applyToggles [initStemUnit, initStemUnit]
          [ToggleOp.solo 0, ToggleOp.mute 1, ToggleOp.mute 1]) := by
  decide

/-- C2 amended: the solo-precedence audibility matrix is established by
every solo toggle (whose branch recomputes every stem's applied mute); a
mute toggle only rewrites the toggled stem's own applied mute, so the
matrix is guaranteed after solo toggles, not after arbitrary sequences. -/
theorem soloInvariant_after_solo_toggle (s : Session) (i : ℕ) (v : Bool) (h : i < s.length) :
    soloInvariant (updateStemParam s i (StemParam.solo v)) := by
  unfold updateStemParam
  rw [dif_pos h]
  exact recomputeMutes_soloInvariant _

/-- Witness for the amended C2 on a concrete two-stem session. -/
theorem soloInvariant_after_solo_toggle_witness :
    0 < ([initStemUnit, initStemUnit] : Session).length ∧
    soloInvariant (updateStemParam [initStemUnit, initStemUnit] 0 (StemParam.solo true)) :=
  ⟨by decide, soloInvariant_after_solo_toggle [initStemUnit, initStemUnit] 0 true (by decide)⟩

/-- C3 counterexample: with only reverb enabled, the single-track rebuild
connects `eq3 → reverb → recorder/destination` and has no dry
`eq3 → destination` edge, so its topology is not parallel-then-sum. -/
theorem rebuildChain_not_parallel :
    ¬ parallelThenSum [AudioNode.reverb]
        (rebuildChain ⟨true, false, false, false⟩) := by
  decide

/-- C3 amended: the multi-stem player's per-stem graph is parallel-then-sum
(its EQ fans out, unconditionally, to reverb, delay, distortion and
envelope, each summing into the destination alongside the dry EQ output);
the single-track player instead builds a serial chain `eq3 → (enabled
effects in the fixed order reverb, delay, distortion, chorus) → recorder
and destination`. In both players the graph is a function of the current
enabled flags alone, so the order in which effects were enabled is
irrelevant. -/
theorem effect_topology_amended :
    parallelThenSum
        [AudioNode.reverb, AudioNode.delay, AudioNode.distortion, AudioNode.envelope]
        stemGraph ∧
    ∀ f : CardFx, rebuildChain f = chainLinks AudioNode.eq3 (enabledEffects f) := by
  constructor
  · decide
  · intro f
    obtain ⟨r, d, di, c⟩ := f
    cases r <;> cases d <;> cases di <;> cases c <;> rfl

/-- Witness for the amended C3 at the all-enabled flag assignment. -/
theorem effect_topology_amended_witness :
    parallelThenSum
        [AudioNode.reverb, AudioNode.delay, AudioNode.distortion, AudioNode.envelope]
        stemGraph ∧
    rebuildChain ⟨true, true, true, true⟩ =
      chainLinks AudioNode.eq3 (enabledEffects ⟨true, true, true, true⟩) :=
  ⟨effect_topology_amended.1, effect_topology_amended.2 ⟨true, true, true, true⟩⟩

/-- C5: with a known duration and playback rate, the recording waits
exactly `(duration / playbackRate) * 1000 + 500` milliseconds, keeps the
source's loop flag false for the whole capture, and on successful
completion restores the loop flag to its pre-call value. -/
theorem downloadTransformed_timing (inp : CaptureInput)
    (hd : 0 < inp.duration) (hr : 0 < inp.playbackRate) :
    (downloadTransformed inp).waitMs = inp.duration / inp.playbackRate * 1000 + 500 ∧
    (downloadTransformed inp).loopDuringCapture = false ∧
    (inp.captureOk = true → (downloadTransformed inp).loopAfter = inp.loopBefore) := by
  unfold downloadTransformed
  rw [if_neg hd.ne']
  cases hc : inp.captureOk <;> simp

/-- Witness for C5: a 4-second track at rate 1 records for 4500 ms. -/
theorem downloadTransformed_timing_witness :
    (downloadTransformed ⟨4, 1, true, true, true⟩).waitMs = 4 / 1 * 1000 + 500 ∧
    (downloadTransformed ⟨4, 1, true, true, true⟩).loopDuringCapture = false ∧
    (true = true → (downloadTransformed ⟨4, 1, true, true, true⟩).loopAfter = true) :=
  downloadTransformed_timing ⟨4, 1, true, true, true⟩ (by norm_num) (by norm_num)

/-- C6 counterexample: a looping, playing track whose capture throws is
left with `loop = false` and stopped — the `catch` block restores
nothing, so restoration does not happen on every outcome. -/
theorem downloadTransformed_catch_counterexample :
    (⟨4, 1, true, true, false⟩ : CaptureInput).loopBefore = true ∧
    (⟨4, 1, true, true, false⟩ : CaptureInput).wasPlaying = true ∧
    (downloadTransformed ⟨4, 1, true, true, false⟩).loopAfter = false ∧
    (downloadTransformed ⟨4, 1, true, true, false⟩).playingAfter = false := by
  decide

/-- C6 amended: only the loop flag is restored, and only on the success
path; the play/pause transport is not restored on any outcome — the
capture replays the track with `loop` forced off, the player stops by
itself before the wait elapses, and no path restarts a previously-playing
track. When the capture throws, the loop flag additionally remains false
and only the recording-in-progress flag is cleared by the `catch` block. -/
theorem downloadTransformed_restore_only_on_success (inp : CaptureInput)
    (hd : 0 < inp.duration) :
    (inp.captureOk = true → (downloadTransformed inp).loopAfter = inp.loopBefore) ∧
    (downloadTransformed inp).playingAfter = false ∧
    (inp.captureOk = false →
      (downloadTransformed inp).loopAfter = false ∧
      (downloadTransformed inp).isRecordingAfter = false) := by
  unfold downloadTransformed
  rw [if_neg hd.ne']
  cases hc : inp.captureOk <;> simp

/-- Witness for the amended C6 on the success path: the loop flag comes
back, the transport stays stopped. -/
theorem downloadTransformed_restore_only_on_success_witness :
    (true = true → (downloadTransformed ⟨4, 1, true, true, true⟩).loopAfter = true) ∧
    (downloadTransformed ⟨4, 1, true, true, true⟩).playingAfter = false ∧
    (true = false →
      (downloadTransformed ⟨4, 1, true, true, true⟩).loopAfter = false ∧
      (downloadTransformed ⟨4, 1, true, true, true⟩).isRecordingAfter = false) :=
  downloadTransformed_restore_only_on_success ⟨4, 1, true, true, true⟩ (by norm_num)

/-- C8 counterexample: `handleSeek` never clamps. A click coordinate past
the element's right edge (clickX 150 on a width-100 element, duration 10)
makes the handler start the player at offset 15, outside `[0, 10]`. -/
theorem handleSeek_no_clamp_counterexample :
    PlayerCmd.start 15 ∈ handleSeek 10 150 100 true ∧ ¬ ((15 : ℚ) ≤ 10) := by
  constructor
  · unfold handleSeek seekOffset
    norm_num
  · norm_num

/-- C8 amended: the offset handed to the player is
`(clickX / width) * duration` with no clamping; it lies within
`[0, duration]` exactly because a click coordinate inside the element has
`0 ≤ clickX ≤ width`. When the voice is playing, the handler stops it and
restarts it at that offset. -/
theorem handleSeek_within_bounds (duration clickX width : ℚ)
    (hd : 0 < duration) (hw : 0 < width) (hx0 : 0 ≤ clickX) (hx1 : clickX ≤ width) :
    0 ≤ seekOffset duration clickX width ∧
    seekOffset duration clickX width ≤ duration ∧
    handleSeek duration clickX width true =
      [PlayerCmd.stop, PlayerCmd.start (seekOffset duration clickX width)] := by
  refine ⟨?_, ?_, ?_⟩
  · exact mul_nonneg (div_nonneg hx0 hw.le) hd.le
  · exact mul_le_of_le_one_left hd.le ((div_le_one hw).mpr hx1)
  · unfold handleSeek
    rw [if_neg hd.ne']
    rfl

/-- Witness for the amended C8: a mid-element click on a 10-second track. -/
theorem handleSeek_within_bounds_witness :
    0 ≤ seekOffset 10 50 100 ∧
    seekOffset 10 50 100 ≤ 10 ∧
    handleSeek 10 50 100 true = [PlayerCmd.stop, PlayerCmd.start (seekOffset 10 50 100)] :=
  handleSeek_within_bounds 10 50 100 (by norm_num) (by norm_num) (by norm_num) (by norm_num)

/-- C10: in the multi-stem player the disabled-effect wet invariant —
enabled flag false implies applied wet equals zero — holds for a freshly
initialized stem and is preserved by every `updateStemParam` operation
(mix updates on a disabled effect leave the wet at zero); re-enabling
reverb or delay applies the most recently stored mix value. -/
theorem wet_zero_invariant (s : Session) (i : ℕ) (p : StemParam)
    (hi : i < s.length) (hinv : ∀ u ∈ s, wetInvariant u) :
    wetInvariant initStemUnit ∧
    (∀ u ∈ updateStemParam s i p, wetInvariant u) ∧
    ((updateStemParam s i (StemParam.reverbEnabled true)).get? i).map
        (fun u => u.nodes.reverbWet) =
      (s.get? i).map (fun u => u.ctrl.reverbMix) ∧
    ((updateStemParam s i (StemParam.delayEnabled true)).get? i).map
        (fun u => u.nodes.delayWet) =
      (s.get? i).map (fun u => u.ctrl.delayMix) := by
  refine ⟨by decide, wetInvariant_updateStemParam s i p hinv, ?_, ?_⟩
  · unfold updateStemParam
    rw [dif_pos hi]
    show Option.map (fun u => u.nodes.reverbWet)
        ((modifyAt
          (modifyAt s i
            (fun u => { u with ctrl := setCtrlParam u.ctrl (StemParam.reverbEnabled true) })) i
          (fun u =>
            { u with nodes :=
                { u.nodes with
                  reverbWet :=
                    if true then (s.get ⟨i, hi⟩).ctrl.reverbMix else 0 } })).get? i) =
      Option.map (fun u => u.ctrl.reverbMix) (s.get? i)
    rw [modifyAt_modifyAt, get?_modifyAt_self, List.get?_eq_get hi]
    rfl
  · unfold updateStemParam
    rw [dif_pos hi]
    show Option.map (fun u => u.nodes.delayWet)
        ((modifyAt
          (modifyAt s i
            (fun u => { u with ctrl := setCtrlParam u.ctrl (StemParam.delayEnabled true) })) i
          (fun u =>
            { u with nodes :=
                { u.nodes with
                  delayWet :=
                    if true then (s.get ⟨i, hi⟩).ctrl.delayMix else 0 } })).get? i) =
      Option.map (fun u => u.ctrl.delayMix) (s.get? i)
    rw [modifyAt_modifyAt, get?_modifyAt_self, List.get?_eq_get hi]
    rfl

/-- Witness for C10 on a fresh one-stem session, updating the reverb mix
while the effect is disabled. -/
theorem wet_zero_invariant_witness :
    (∀ u ∈ ([initStemUnit] : Session), wetInvariant u) ∧
    (∀ u ∈ updateStemParam [initStemUnit] 0 (StemParam.reverbMix (1/2)), wetInvariant u) ∧
    ((updateStemParam [initStemUnit] 0 (StemParam.reverbEnabled true)).get? 0).map
        (fun u => u.nodes.reverbWet) =
      (([initStemUnit] : Session).get? 0).map (fun u => u.ctrl.reverbMix) :=
  ⟨by decide,
    (wet_zero_invariant [initStemUnit] 0 (StemParam.reverbMix (1/2)) (by decide) (by decide)).2.1,
    (wet_zero_invariant [initStemUnit] 0 (StemParam.reverbMix (1/2)) (by decide) (by decide)).2.2.1⟩

end SoundShare
